import Mathlib

/-!
Shallow embedding of `autoDiff.py`: forward-mode automatic differentiation
over dual numbers whose components live in an arbitrary-precision real
engine (python-flint `arb`).  The engine itself is an external collaborator;
its primitives are modelled over exact reals, with the fallible ones
(division, logarithm, square root, real power) signalling the typed errors
of the design's error taxonomy.  The dual-number layer (`DualArb`, the
elementary functions, `differentiate`) is translated operator by operator
from the source.
-/

namespace AutoDiff

/-- Error taxonomy of the layer: the source's ZeroDivisionError, ValueError
and TypeError, under the design's names. -/
inductive ArbError
  | divisionByZero
  | domainError
  | unsupportedOperation
deriving DecidableEq

/-- Dual number over the engine's real type: `val + eps * der` with
`eps^2 = 0` (source class `DualArb`, fields `val` and `der`). -/
structure DualArb where
  val : ℝ
  der : ℝ

/-- Operand of a Python binary operation in this layer: a bare scalar or an
already-constructed `DualArb`. -/
inductive PyVal
  | scalar (s : ℝ)
  | dual (d : DualArb)

/-- Source `DualArb.lift`: a `DualArb` operand is returned unchanged, a bare
scalar is wrapped with tangent 0. -/
def DualArb.lift : PyVal → DualArb
  | .dual d => d
  | .scalar s => ⟨s, 0⟩

/-- Modelled from the spec: the external engine's real division, absent from
src; the collaborator contract has it raise on division by an exact zero,
and rounding is not modelled (the engine computes on exact reals here). -/
noncomputable def arbDiv (x y : ℝ) : Except ArbError ℝ :=
  if y = 0 then .error .divisionByZero else .ok (x / y)

/-- Modelled from the spec: the external engine's natural logarithm, absent
from src; it fails with a domain error on a non-positive argument. -/
noncomputable def arbLog (x : ℝ) : Except ArbError ℝ :=
  if x ≤ 0 then .error .domainError else .ok (Real.log x)

/-- Modelled from the spec: the external engine's square root, absent from
src; it fails with a domain error on a negative argument. -/
noncomputable def arbSqrt (x : ℝ) : Except ArbError ℝ :=
  if x < 0 then .error .domainError else .ok (Real.sqrt x)

open Classical in
/-- Modelled from the spec: the external engine's power by a real exponent,
absent from src; it fails with a domain error when the base is negative and
the exponent is not an integer, deferring to the engine's own domain
rules. -/
noncomputable def arbPow (x y : ℝ) : Except ArbError ℝ :=
  if x < 0 ∧ ∀ n : ℤ, (n : ℝ) ≠ y then .error .domainError
  else .ok (x ^ y)

/-- Source `DualArb.__add__`: the other operand is lifted and the components
add. -/
def DualArb.add (a : DualArb) (other : PyVal) : DualArb :=
  let o := DualArb.lift other
  ⟨a.val + o.val, a.der + o.der⟩

/-- Source `__radd__`, which the class binds to the very same function as
`__add__`. -/
def DualArb.radd : DualArb → PyVal → DualArb := DualArb.add

/-- Source `DualArb.__sub__`. -/
def DualArb.sub (a : DualArb) (other : PyVal) : DualArb :=
  let o := DualArb.lift other
  ⟨a.val - o.val, a.der - o.der⟩

/-- Source `DualArb.__rsub__`: computes `other - self`. -/
def DualArb.rsub (a : DualArb) (other : PyVal) : DualArb :=
  let o := DualArb.lift other
  ⟨o.val - a.val, o.der - a.der⟩

/-- Source `DualArb.__neg__`. -/
def DualArb.neg (a : DualArb) : DualArb := ⟨-a.val, -a.der⟩

/-- Source `DualArb.__mul__`: product rule
`(x + eps dx)(y + eps dy) = xy + eps (x dy + dx y)`. -/
def DualArb.mul (a : DualArb) (other : PyVal) : DualArb :=
  let o := DualArb.lift other
  ⟨a.val * o.val, a.val * o.der + a.der * o.val⟩

/-- Source `__rmul__`, which the class binds to the very same function as
`__mul__`. -/
def DualArb.rmul : DualArb → PyVal → DualArb := DualArb.mul

/-- Source `DualArb.__truediv__`: `inv = 1 / other.val` through the engine,
then the quotient rule in the source's form
`(dx*y - x*dy) * (inv * inv)`. -/
noncomputable def DualArb.div (a : DualArb) (other : PyVal) :
    Except ArbError DualArb := do
  let o := DualArb.lift other
  let inv ← arbDiv 1 o.val
  pure ⟨a.val * inv, (a.der * o.val - a.val * o.der) * (inv * inv)⟩

/-- Source `DualArb.__rtruediv__`: computes `other / self`, the denominator
being `self.val`. -/
noncomputable def DualArb.rdiv (a : DualArb) (other : PyVal) :
    Except ArbError DualArb := do
  let o := DualArb.lift other
  let inv ← arbDiv 1 a.val
  pure ⟨o.val * inv, (o.der * a.val - o.val * a.der) * (inv * inv)⟩

/-- Source `DualArb.__pow__`: a dual exponent raises (a TypeError in the
source, the unsupported-operation error of the design's taxonomy); for a
scalar exponent `n` the value is `x ** n` and the tangent
`n * x ** (n - 1) * dx`, both powers through the engine. -/
noncomputable def DualArb.pow (a : DualArb) (n : PyVal) :
    Except ArbError DualArb :=
  match n with
  | .dual _ => .error .unsupportedOperation
  | .scalar n => do
      let val ← arbPow a.val n
      let p ← arbPow a.val (n - 1)
      pure ⟨val, n * p * a.der⟩

/-- Source `DualArb.__rpow__`: `base ** (x + eps dx)`; a non-positive base
raises (a ValueError in the source, the domain error of the design's
taxonomy), otherwise the value is `base ** x` and the tangent
`val * dx * log base`. -/
noncomputable def DualArb.rpow (a : DualArb) (base : ℝ) :
    Except ArbError DualArb :=
  if base ≤ 0 then .error .domainError
  else do
    let val ← arbPow base a.val
    let l ← arbLog base
    pure ⟨val, val * a.der * l⟩

/-- Source `dual_exp`: lifts, then `(exp x, dx * exp x)`. -/
noncomputable def dual_exp (x : PyVal) : DualArb :=
  let d := DualArb.lift x
  ⟨Real.exp d.val, d.der * Real.exp d.val⟩

/-- Source `dual_log`: lifts, takes `log x` through the engine, then the
tangent `dx / x` through the engine's division. -/
noncomputable def dual_log (x : PyVal) : Except ArbError DualArb := do
  let d := DualArb.lift x
  let l ← arbLog d.val
  let q ← arbDiv d.der d.val
  pure ⟨l, q⟩

/-- Source `dual_sin`: lifts, then `(sin x, dx * cos x)`. -/
noncomputable def dual_sin (x : PyVal) : DualArb :=
  let d := DualArb.lift x
  ⟨Real.sin d.val, d.der * Real.cos d.val⟩

/-- Source `dual_cos`: lifts, then `(cos x, -dx * sin x)`. -/
noncomputable def dual_cos (x : PyVal) : DualArb :=
  let d := DualArb.lift x
  ⟨Real.cos d.val, -d.der * Real.sin d.val⟩

/-- Source `dual_tan`: `sin / cos` through `__truediv__`. -/
noncomputable def dual_tan (x : PyVal) : Except ArbError DualArb :=
  DualArb.div (dual_sin x) (.dual (dual_cos x))

/-- Source `dual_sqrt`: lifts, takes `sqrt x` through the engine, then the
tangent `dx / (2 * sqrt x)` through the engine's division. -/
noncomputable def dual_sqrt (x : PyVal) : Except ArbError DualArb := do
  let d := DualArb.lift x
  let v ← arbSqrt d.val
  let q ← arbDiv d.der (2 * v)
  pure ⟨v, q⟩

/-- Source `differentiate`: sets the working precision `dps` (rounding is not
modelled, so the parameter is carried but has no effect on the exact-real
engine), seeds `(x0, 1)`, applies `f`, lifts a non-dual result, and returns
the pair `(val, der)`; any error raised inside `f` propagates unchanged. -/
noncomputable def differentiate (f : DualArb → Except ArbError PyVal)
    (x0 : ℝ) (dps : ℕ) : Except ArbError (ℝ × ℝ) := do
  let y ← f ⟨x0, 1⟩
  let d := DualArb.lift y
  pure (d.val, d.der)

/-- Source `__main__` demo function `f(x) = x**3 + 2 * dual_sin(x) *
dual_exp(x)`, sequenced exactly as Python dispatches it: `x ** 3` through
`__pow__`, `2 * dual_sin(x)` through `__rmul__`, the second product and the
sum through `__mul__` and `__add__`. -/
noncomputable def fDemo (x : DualArb) : Except ArbError PyVal := do
  let cube ← DualArb.pow x (.scalar 3)
  let prod := DualArb.mul (DualArb.rmul (dual_sin (.dual x)) (.scalar 2))
    (.dual (dual_exp (.dual x)))
  pure (.dual (DualArb.add cube (.dual prod)))

/-- Python dispatch of `u + v` over scalar-or-dual operands: a dual left
operand uses `__add__`; a scalar left with a dual right falls through to
`__radd__`; two scalars add in the engine. -/
def pyAdd (u v : PyVal) : PyVal :=
  match u, v with
  | .dual d, _ => .dual (DualArb.add d v)
  | .scalar s, .dual d => .dual (DualArb.radd d (.scalar s))
  | .scalar s, .scalar t => .scalar (s + t)

/-- Python dispatch of `u - v` over scalar-or-dual operands. -/
def pySub (u v : PyVal) : PyVal :=
  match u, v with
  | .dual d, _ => .dual (DualArb.sub d v)
  | .scalar s, .dual d => .dual (DualArb.rsub d (.scalar s))
  | .scalar s, .scalar t => .scalar (s - t)

/-- Python dispatch of `u * v` over scalar-or-dual operands. -/
def pyMul (u v : PyVal) : PyVal :=
  match u, v with
  | .dual d, _ => .dual (DualArb.mul d v)
  | .scalar s, .dual d => .dual (DualArb.rmul d (.scalar s))
  | .scalar s, .scalar t => .scalar (s * t)

/-- Python dispatch of `u / v` over scalar-or-dual operands. -/
noncomputable def pyDiv (u v : PyVal) : Except ArbError PyVal :=
  match u, v with
  | .dual d, _ => (DualArb.div d v).map .dual
  | .scalar s, .dual d => (DualArb.rdiv d (.scalar s)).map .dual
  | .scalar s, .scalar t => (arbDiv s t).map .scalar

@[simp]
theorem except_ok_bind {ε α β : Type} (a : α) (f : α → Except ε β) :
    (Except.ok a : Except ε α) >>= f = f a := rfl

@[simp]
theorem except_error_bind {ε α β : Type} (e : ε) (f : α → Except ε β) :
    (Except.error e : Except ε α) >>= f = Except.error e := rfl

@[simp]
theorem except_map_ok {ε α β : Type} (f : α → β) (a : α) :
    (Except.ok a : Except ε α).map f = Except.ok (f a) := rfl

@[simp]
theorem except_map_error {ε α β : Type} (f : α → β) (e : ε) :
    (Except.error e : Except ε α).map f = Except.error e := rfl

@[simp]
theorem except_fmap_ok {ε α β : Type} (f : α → β) (a : α) :
    f <$> (Except.ok a : Except ε α) = Except.ok (f a) := rfl

@[simp]
theorem except_fmap_error {ε α β : Type} (f : α → β) (e : ε) :
    f <$> (Except.error e : Except ε α) = Except.error e := rfl

theorem arbPow_of_nonneg {x : ℝ} (h : 0 ≤ x) (y : ℝ) :
    arbPow x y = Except.ok (x ^ y) := by
  rw [arbPow, if_neg]
  rintro ⟨h2, -⟩
  exact absurd h2 (not_lt.mpr h)

theorem arbDiv_of_ne {x y : ℝ} (h : y ≠ 0) : arbDiv x y = Except.ok (x / y) :=
  if_neg h

theorem arbDiv_zero (x : ℝ) : arbDiv x 0 = Except.error .divisionByZero :=
  if_pos rfl

theorem arbLog_of_pos {x : ℝ} (h : 0 < x) : arbLog x = Except.ok (Real.log x) :=
  if_neg (not_le.mpr h)

/-- C4: raising a dual number to an exponent that is itself a dual number
signals the unsupported-operation error, for every pair of dual numbers; the
dual-exponent power is never computed. -/
theorem C4_dual_exponent_unsupported (a b : DualArb) :
    DualArb.pow a (.dual b) = Except.error .unsupportedOperation := rfl

/-- C9: `differentiate` seeds `(x0, 1)`, applies `f`, and lifts a non-dual
result to tangent 0 before returning the pair; consequently a constant
function such as `fun x => 5` yields value 5 and derivative 0 at every
point. -/
theorem C9_driver_seed_and_constants :
    (∀ (f : DualArb → Except ArbError PyVal) (x0 : ℝ) (p : ℕ),
      differentiate f x0 p =
        (f ⟨x0, 1⟩).map fun y => ((DualArb.lift y).val, (DualArb.lift y).der)) ∧
    (∀ (x0 : ℝ) (p : ℕ),
      differentiate (fun _ => .ok (.scalar 5)) x0 p = .ok (5, 0)) := by
  constructor
  · intro f x0 p
    rcases h : f ⟨x0, 1⟩ with e | y <;> simp [differentiate, h]
  · intro x0 p
    rfl

/-- C10: lifting is idempotent — an already dual value is returned unchanged
(modelled as equality of the pure values), a scalar becomes `(s, 0)`, lifting
twice equals lifting once, and every elementary function applied to an
already-lifted value gives the same result as on the bare operand. -/
theorem C10_lift_idempotent :
    (∀ d : DualArb, DualArb.lift (.dual d) = d) ∧
    (∀ s : ℝ, DualArb.lift (.scalar s) = ⟨s, 0⟩) ∧
    (∀ x : PyVal, DualArb.lift (.dual (DualArb.lift x)) = DualArb.lift x) ∧
    (∀ x : PyVal,
      dual_exp (.dual (DualArb.lift x)) = dual_exp x ∧
      dual_log (.dual (DualArb.lift x)) = dual_log x ∧
      dual_sin (.dual (DualArb.lift x)) = dual_sin x ∧
      dual_cos (.dual (DualArb.lift x)) = dual_cos x ∧
      dual_tan (.dual (DualArb.lift x)) = dual_tan x ∧
      dual_sqrt (.dual (DualArb.lift x)) = dual_sqrt x) :=
  ⟨fun _ => rfl, fun _ => rfl, fun _ => rfl,
   fun _ => ⟨rfl, rfl, rfl, rfl, rfl, rfl⟩⟩

/-- C2: division, reversed division and the tangent function signal the
division-by-zero error exactly when the denominator's primal component is
zero (`other.val` for `__truediv__`, `self.val` for `__rtruediv__`, and
`cos x` for `dual_tan`); `differentiate` of `1/x` at 0 raises it. -/
theorem C2_division_by_zero :
    (∀ a b : DualArb,
      DualArb.div a (.dual b) = Except.error .divisionByZero ↔ b.val = 0) ∧
    (∀ a b : DualArb,
      DualArb.rdiv a (.dual b) = Except.error .divisionByZero ↔ a.val = 0) ∧
    (∀ x : PyVal,
      dual_tan x = Except.error .divisionByZero ↔
        Real.cos (DualArb.lift x).val = 0) ∧
    (∀ p : ℕ,
      differentiate (fun x => (DualArb.rdiv x (.scalar 1)).map PyVal.dual) 0 p =
        Except.error .divisionByZero) := by
  refine ⟨fun a b => ?_, fun a b => ?_, fun x => ?_, fun p => ?_⟩
  · by_cases h : b.val = 0 <;> simp [DualArb.div, arbDiv, DualArb.lift, h]
  · by_cases h : a.val = 0 <;> simp [DualArb.rdiv, arbDiv, DualArb.lift, h]
  · rcases x with s | d
    · by_cases h : Real.cos s = 0 <;>
        simp [dual_tan, dual_sin, dual_cos, DualArb.div, arbDiv, DualArb.lift, h]
    · by_cases h : Real.cos d.val = 0 <;>
        simp [dual_tan, dual_sin, dual_cos, DualArb.div, arbDiv, DualArb.lift, h]
  · simp [differentiate, DualArb.rdiv, arbDiv, DualArb.lift]

/-- C3: the natural-log function signals the domain error when the primal is
non-positive and otherwise returns `(log x, dx / x)`; `differentiate` of
`log x` at -1 raises the domain error. -/
theorem C3_log_domain :
    (∀ x : PyVal,
      dual_log x =
        if (DualArb.lift x).val ≤ 0 then Except.error .domainError
        else Except.ok ⟨Real.log (DualArb.lift x).val,
          (DualArb.lift x).der / (DualArb.lift x).val⟩) ∧
    (∀ p : ℕ,
      differentiate (fun x => (dual_log (.dual x)).map PyVal.dual) (-1) p =
        Except.error .domainError) := by
  constructor
  · intro x
    by_cases h : (DualArb.lift x).val ≤ 0
    · simp [dual_log, arbLog, h]
    · have hpos : 0 < (DualArb.lift x).val := not_le.mp h
      simp [dual_log, arbLog, arbDiv, h, ne_of_gt hpos]
  · intro p
    have hneg : (-1 : ℝ) ≤ 0 := by norm_num
    simp [differentiate, dual_log, arbLog, DualArb.lift, hneg]

/-- C5: for a nonzero denominator primal the quotient has primal `x/y` and
tangent `(dx*y - x*dy) / y^2` — the source's `(dx*y - x*dy) * inv * inv`
form equals this — and a bare scalar operand on either side is first lifted
to tangent 0. -/
theorem C5_quotient_rule (a b : DualArb) (h : b.val ≠ 0) :
    DualArb.div a (.dual b) =
      Except.ok ⟨a.val / b.val,
        (a.der * b.val - a.val * b.der) / b.val ^ 2⟩ ∧
    (∀ s : ℝ,
      DualArb.div a (.scalar s) = DualArb.div a (.dual ⟨s, 0⟩) ∧
      DualArb.rdiv a (.scalar s) = DualArb.rdiv a (.dual ⟨s, 0⟩)) := by
  refine ⟨?_, fun s => ⟨rfl, rfl⟩⟩
  have hstep : DualArb.div a (.dual b) =
      Except.ok ⟨a.val * (1 / b.val),
        (a.der * b.val - a.val * b.der) * (1 / b.val * (1 / b.val))⟩ := by
    simp only [DualArb.div, DualArb.lift, arbDiv_of_ne h, except_ok_bind]
    rfl
  rw [hstep]
  simp only [Except.ok.injEq, DualArb.mk.injEq]
  constructor <;> ring

/-- C5 witness: the quotient rule at a = (3, 5), b = (2, 7). -/
theorem C5_quotient_rule_witness :
    ((⟨2, 7⟩ : DualArb).val ≠ 0) ∧
    (DualArb.div ⟨3, 5⟩ (.dual ⟨2, 7⟩) =
      Except.ok ⟨(3 : ℝ) / 2, ((5 : ℝ) * 2 - 3 * 7) / 2 ^ 2⟩ ∧
    (∀ s : ℝ,
      DualArb.div ⟨3, 5⟩ (.scalar s) = DualArb.div ⟨3, 5⟩ (.dual ⟨s, 0⟩) ∧
      DualArb.rdiv ⟨3, 5⟩ (.scalar s) = DualArb.rdiv ⟨3, 5⟩ (.dual ⟨s, 0⟩))) :=
  ⟨by norm_num, C5_quotient_rule ⟨3, 5⟩ ⟨2, 7⟩ (by norm_num)⟩

/-- C6: the square-root function signals the domain error for a negative
primal, the division-by-zero error for a zero primal, and otherwise returns
`(sqrt x, dx / (2 * sqrt x))`. -/
theorem C6_sqrt_domain (x : PyVal) :
    dual_sqrt x =
      if (DualArb.lift x).val < 0 then Except.error .domainError
      else if (DualArb.lift x).val = 0 then Except.error .divisionByZero
      else Except.ok ⟨Real.sqrt (DualArb.lift x).val,
        (DualArb.lift x).der / (2 * Real.sqrt (DualArb.lift x).val)⟩ := by
  rcases x with s | d
  · by_cases h1 : s < 0
    · simp [dual_sqrt, arbSqrt, DualArb.lift, h1]
    · by_cases h2 : s = 0
      · simp [dual_sqrt, arbSqrt, arbDiv, DualArb.lift, h1, h2, Real.sqrt_zero]
      · have hpos : 0 < s := lt_of_le_of_ne (not_lt.mp h1) (Ne.symm h2)
        have hs : Real.sqrt s ≠ 0 := ne_of_gt (Real.sqrt_pos.mpr hpos)
        simp [dual_sqrt, arbSqrt, arbDiv, DualArb.lift, h1, h2, hs]
  · by_cases h1 : d.val < 0
    · simp [dual_sqrt, arbSqrt, DualArb.lift, h1]
    · by_cases h2 : d.val = 0
      · simp [dual_sqrt, arbSqrt, arbDiv, DualArb.lift, h1, h2, Real.sqrt_zero]
      · have hpos : 0 < d.val := lt_of_le_of_ne (not_lt.mp h1) (Ne.symm h2)
        have hs : Real.sqrt d.val ≠ 0 := ne_of_gt (Real.sqrt_pos.mpr hpos)
        simp [dual_sqrt, arbSqrt, arbDiv, DualArb.lift, h1, h2, hs]

/-- C7: a scalar base raised to a dual exponent signals the domain error for
a non-positive base and otherwise returns primal `base ^ x` with tangent
`base ^ x * dx * log base`. -/
theorem C7_scalar_base_power (base : ℝ) (a : DualArb) :
    DualArb.rpow a base =
      if base ≤ 0 then Except.error .domainError
      else Except.ok ⟨base ^ a.val, base ^ a.val * a.der * Real.log base⟩ := by
  by_cases h : base ≤ 0
  · simp [DualArb.rpow, h]
  · have hpos : 0 < base := not_le.mp h
    simp [DualArb.rpow, h, arbPow_of_nonneg hpos.le, arbLog_of_pos hpos]

/-- C8: addition and multiplication are commutative on every pair of
scalar-or-dual operands, and on every basic operator a bare scalar on
either side behaves exactly as its lift to tangent 0. -/
theorem C8_commutativity :
    (∀ u v : PyVal, pyAdd u v = pyAdd v u ∧ pyMul u v = pyMul v u) ∧
    (∀ (s : ℝ) (d : DualArb),
      pyAdd (.scalar s) (.dual d) = .dual (DualArb.add ⟨s, 0⟩ (.dual d)) ∧
      pySub (.scalar s) (.dual d) = .dual (DualArb.sub ⟨s, 0⟩ (.dual d)) ∧
      pyMul (.scalar s) (.dual d) = .dual (DualArb.mul ⟨s, 0⟩ (.dual d)) ∧
      pyDiv (.scalar s) (.dual d) = (DualArb.div ⟨s, 0⟩ (.dual d)).map .dual ∧
      pyAdd (.dual d) (.scalar s) = .dual (DualArb.add d (.dual ⟨s, 0⟩)) ∧
      pySub (.dual d) (.scalar s) = .dual (DualArb.sub d (.dual ⟨s, 0⟩)) ∧
      pyMul (.dual d) (.scalar s) = .dual (DualArb.mul d (.dual ⟨s, 0⟩)) ∧
      pyDiv (.dual d) (.scalar s) = (DualArb.div d (.dual ⟨s, 0⟩)).map .dual) := by
  constructor
  · intro u v
    constructor
    · rcases u with s | a <;> rcases v with t | b <;>
        simp [pyAdd, DualArb.add, DualArb.radd, DualArb.lift,
          DualArb.mk.injEq, add_comm]
    · rcases u with s | a <;> rcases v with t | b <;>
        simp [pyMul, DualArb.mul, DualArb.rmul, DualArb.lift,
          DualArb.mk.injEq, mul_comm, add_comm]
  · intro s d
    refine ⟨?_, rfl, ?_, rfl, rfl, rfl, rfl, rfl⟩
    · simp [pyAdd, DualArb.add, DualArb.radd, DualArb.lift,
        DualArb.mk.injEq, add_comm]
    · simp [pyMul, DualArb.mul, DualArb.rmul, DualArb.lift,
        DualArb.mk.injEq, mul_comm, add_comm]

/-- C1: for the demo function f(x) = x**3 + 2*sin(x)*exp(x) written with the
dual operators, differentiate f 2 80 returns a pair whose derivative
component is 3*2^2 + 2*(cos 2 * exp 2 + sin 2 * exp 2); over the exact-real
model of the engine the two sides agree exactly, hence in particular to
80-digit working precision. -/
theorem C1_demo_derivative :
    (differentiate fDemo 2 80).map Prod.snd =
      Except.ok (3 * 2 ^ 2 +
        2 * (Real.cos 2 * Real.exp 2 + Real.sin 2 * Real.exp 2)) := by
  have h3 : arbPow 2 3 = Except.ok ((2 : ℝ) ^ (3 : ℝ)) :=
    arbPow_of_nonneg (by norm_num) 3
  have h2 : arbPow 2 (3 - 1) = Except.ok ((2 : ℝ) ^ ((3 : ℝ) - 1)) :=
    arbPow_of_nonneg (by norm_num) _
  have hpow : (2 : ℝ) ^ ((3 : ℝ) - 1) = 4 := by
    rw [show (3 : ℝ) - 1 = ((2 : ℕ) : ℝ) by norm_num, Real.rpow_natCast]
    norm_num
  simp [differentiate, fDemo, DualArb.pow, h3, h2, hpow, DualArb.mul,
    DualArb.rmul, dual_sin, dual_exp, DualArb.add, DualArb.lift]
  ring

end AutoDiff
